import Mathlib

/-!
A shallow embedding of the `arp` declarative API-test runner (Go) in Lean 4:
the generic value tree, the per-suite keyed data store, the template/variable
expansion pipeline, the token-stack parser, the matcher variants and the
matcher evaluator, translated function by function from the Go sources.
Theorems at the end of the file settle the specification claims against this
embedding.
-/

namespace Arp

/-- Generic value tree: the Go code passes every decoded YAML/JSON value around
as `interface\x7b\x7d`; the dynamic cases that the embedded functions inspect are
nil, bool, integers, strings, `[]interface\x7b\x7d` and `map[string]interface\x7b\x7d`.
(Floating-point values never reach the functions embedded here.) -/
inductive Value where
  | null : Value
  | bool (b : Bool) : Value
  | int (n : Int) : Value
  | str (s : String) : Value
  | seq (items : List Value) : Value
  | map (fields : List (String × Value)) : Value
deriving Repr

/-- A Go `map[string]interface\x7b\x7d` / `DataStore` value, as an association
list (lookup ignores order, as Go map reads do). -/
abbrev DataStore := List (String × Value)

/-- Go map read `v[key]` with the `ok` flag. -/
def dsGet (ds : DataStore) (k : String) : Option Value :=
  match ds with
  | [] => none
  | (k0, v0) :: rest => if k0 = k then some v0 else dsGet rest k

/-- Modelled from the spec: `DataStore.Put` (its definition is not among the
provided sources; only callers such as `ResponseMatcher.MatchConfig` are).
Per §4.3 the keyed store is a path-addressed read/write map; `Put(k, v)` is the
top-level keyed write `store[k] = v`, exactly the map assignment that the
`testcase.go` call sites also perform directly. -/
def dsPut (ds : DataStore) (k : String) (v : Value) : DataStore :=
  match ds with
  | [] => [(k, v)]
  | (k0, v0) :: rest => if k0 = k then (k, v) :: rest else (k0, v0) :: dsPut rest k v

/-- Go `range` + `Put` merge of one store's entries into another
(`for k := range ds.Store \x7b (*r.DS).Put(k, ds.Store[k]) \x7d`). -/
def dsMerge (dst src : DataStore) : DataStore :=
  src.foldl (fun acc kv => dsPut acc kv.1 kv.2) dst

/-! ## Go standard-library string helpers (modelled byte-for-byte on ASCII,
where Go bytes and runes coincide; every input the claims exercise is ASCII) -/

/-- Character-list version of Go `strings.HasPrefix`. -/
def startsWithL : List Char → List Char → Bool
  | [], _ => true
  | _ :: _, [] => false
  | p :: ps, c :: cs => p = c && startsWithL ps cs

/-- Character-list version of Go `strings.Contains`. -/
def containsSub (pat : List Char) : List Char → Bool
  | [] => startsWithL pat []
  | c :: cs => startsWithL pat (c :: cs) || containsSub pat cs

theorem startsWithL_length {p l : List Char} (h : startsWithL p l = true) :
    p.length ≤ l.length := by
  induction p generalizing l with
  | nil => simp
  | cons x xs ih =>
    cases l with
    | nil => simp [startsWithL] at h
    | cons c cs =>
      simp only [startsWithL, Bool.and_eq_true] at h
      simpa [List.length_cons, Nat.succ_le_succ_iff] using ih h.2

/-- Character-list version of Go `strings.ReplaceAll` (leftmost-first,
non-overlapping; an empty pattern inserts `new` around every rune, exactly as
in Go). Each step consumes at least one character, so a step budget of the
input length is exact; the budget keeps the recursion structural. -/
def replaceAllGo (old new : List Char) : Nat → List Char → List Char
  | _, [] => if old = [] then new else []
  | 0, s => s
  | fuel + 1, c :: rest =>
    if old = [] then new ++ c :: replaceAllGo old new fuel rest
    else if startsWithL old (c :: rest) then
      new ++ replaceAllGo old new fuel ((c :: rest).drop old.length)
    else c :: replaceAllGo old new fuel rest

/-- Go `strings.ReplaceAll` on character lists. -/
def replaceAllL (s old new : List Char) : List Char :=
  replaceAllGo old new s.length s

/-- String wrapper for `replaceAllL`. -/
def goReplaceAll (s old new : String) : String :=
  ⟨replaceAllL s.toList old.toList new.toList⟩

/-- String wrapper for `containsSub` (Go `strings.Contains s pat`). -/
def goContains (s pat : String) : Bool :=
  containsSub pat.toList s.toList

/-- String wrapper for `startsWithL` (Go `strings.HasPrefix s pat`). -/
def goHasPre (s pat : String) : Bool :=
  startsWithL pat.toList s.toList

/-- Go `unicode.IsSpace` restricted to the ASCII whitespace the inputs use. -/
def isGoSpace (c : Char) : Bool :=
  c = ' ' || c = '\t' || c = '\n' || c = '\r'

/-- Go `strings.TrimSpace`. -/
def goTrimSpace (s : String) : String :=
  ⟨((s.toList.dropWhile isGoSpace).reverse.dropWhile isGoSpace).reverse⟩

/-- Go `strings.TrimSuffix s suf`: drops one trailing copy of `suf` if present. -/
def goTrimOneSuf (s suf : String) : String :=
  if startsWithL suf.toList.reverse s.toList.reverse then
    ⟨(s.toList.take (s.toList.length - suf.toList.length))⟩
  else s

/-- Decimal digit run to a natural number; `none` when a non-digit appears or
the run is empty. -/
def digitsToNat : List Char → Option Nat
  | [] => none
  | cs => cs.foldl (fun acc c =>
      match acc with
      | none => none
      | some n => if c.isDigit then some (n * 10 + (c.toNat - '0'.toNat)) else none)
      (some 0)

/-- Go `strconv.ParseUint(s, 10, 64)`: digits only (no sign), value below 2^64. -/
def goParseUint64 (s : String) : Option Nat :=
  match digitsToNat s.toList with
  | none => none
  | some n => if n < 2 ^ 64 then some n else none

/-- Go `strconv.ParseInt(s, 10, bitSize)`: optional sign, digits, and the
two-sided `bitSize` range check. -/
def goParseInt (s : String) (bitSize : Nat) : Option Int :=
  let (sign, digits) :=
    match s.toList with
    | '-' :: rest => ((-1 : Int), rest)
    | '+' :: rest => ((1 : Int), rest)
    | rest => ((1 : Int), rest)
  match digitsToNat digits with
  | none => none
  | some n =>
    let v : Int := sign * Int.ofNat n
    if -(2 ^ (bitSize - 1) : Int) ≤ v ∧ v ≤ (2 ^ (bitSize - 1) : Int) - 1 then some v
    else none

/-- Go `strconv.ParseBool`: exactly the thirteen accepted literals. -/
def goParseBool (s : String) : Option Bool :=
  if s = "1" ∨ s = "t" ∨ s = "T" ∨ s = "TRUE" ∨ s = "true" ∨ s = "True" then some true
  else if s = "0" ∨ s = "f" ∨ s = "F" ∨ s = "FALSE" ∨ s = "false" ∨ s = "False" then
    some false
  else none

/-- Go `strings.Split(s, ".")` (single-character separator). -/
def goSplitOn (s : String) (sep : Char) : List String :=
  (s.toList.splitOn sep).map (fun cs => ⟨cs⟩)

/-- Go `strings.TrimPrefix s pre`: drops one leading copy of `pre` if present. -/
def goTrimOnePre (s pre : String) : String :=
  if startsWithL pre.toList s.toList then ⟨s.toList.drop pre.toList.length⟩ else s

/-! ## fmt.Sprintf("%v", ·) -/

/-- Insertion into a key-sorted association list of formatted entries (Go's
`fmt` package prints map entries in sorted key order). -/
def insertByKey (kv : String × String) : List (String × String) → List (String × String)
  | [] => [kv]
  | kv0 :: rest => if kv.1 ≤ kv0.1 then kv :: kv0 :: rest else kv0 :: insertByKey kv rest

/-- Key-sort for formatted map entries. -/
def sortByKey (l : List (String × String)) : List (String × String) :=
  l.foldr insertByKey []

mutual

/-- Go `fmt.Sprintf("%v", v)` on the value tree. -/
def goFormat : Value → String
  | .null => "<nil>"
  | .bool b => if b then "true" else "false"
  | .int n => toString n
  | .str s => s
  | .seq items => "[" ++ String.intercalate " " (goFormatList items) ++ "]"
  | .map fields =>
    "map[" ++
      String.intercalate " "
        ((sortByKey (goFormatPairs fields)).map (fun kv => kv.1 ++ ":" ++ kv.2)) ++ "]"

/-- Element-wise formatting of a sequence. -/
def goFormatList : List Value → List String
  | [] => []
  | v :: rest => goFormat v :: goFormatList rest

/-- Entry-wise formatting of a mapping. -/
def goFormatPairs : List (String × Value) → List (String × String)
  | [] => []
  | (k, v) :: rest => (k, goFormat v) :: goFormatPairs rest

end

/-- Go `fmt.Sprintf("%v", x)` on an `interface\x7b\x7d` that may be nil. -/
def goFormatIface : Option Value → String
  | none => "<nil>"
  | some v => goFormat v

/-- `varToString` (subcommand.go): nil resolves to the variadic default (or
`""`); anything else goes through `fmt.Sprintf("%v", ·)`. -/
def varToString (v : Option Value) (dflt : List String) : String :=
  match v with
  | none => match dflt with | [] => "" | d :: _ => d
  | some x => goFormat x

/-! ## Token stack (`TokenStack.Parse`) -/

/-- One delimited region found by `TokenStack.Parse`. -/
structure TokenStackFrame where
  startPos : Nat
  endPos : Nat
  token : String
  nested : Nat
deriving Repr, DecidableEq

/-- Parse result: frames innermost-first plus the non-enclosed characters. -/
structure TokenStack where
  frames : List TokenStackFrame
  extra : String
deriving Repr, DecidableEq

/-- The loop body of `TokenStack.Parse`: `runes` is the whole input (kept for
token slicing), the list argument is `runes.drop i`. -/
def tokenParseLoop (runes op cl : List Char) :
    List Char → Nat → Bool → Option TokenStackFrame → List TokenStackFrame →
    List TokenStackFrame → String → TokenStack
  | [], _, _, _, _, frames, extra => ⟨frames, extra⟩
  | c :: rest, i, esc, cur, work, frames, extra =>
    if c = '\\' then
      tokenParseLoop runes op cl rest (i + 1) true cur work frames extra
    else if esc then
      tokenParseLoop runes op cl rest (i + 1) false cur work frames extra
    else if startsWithL op (c :: rest) then
      let nest := match cur with | none => 0 | some f => f.nested + 1
      let work' := match cur with | none => work | some f => f :: work
      tokenParseLoop runes op cl rest (i + 1) false (some ⟨i, 0, "", nest⟩) work'
        frames extra
    else
      match cur with
      | some f =>
        if startsWithL cl (c :: rest) then
          let endPos := i + cl.length - 1
          let tok : String := ⟨(runes.drop f.startPos).take (endPos + 1 - f.startPos)⟩
          let closed : TokenStackFrame := ⟨f.startPos, endPos, tok, f.nested⟩
          match work with
          | [] =>
            tokenParseLoop runes op cl rest (i + 1) false none [] (frames ++ [closed])
              extra
          | w :: ws =>
            tokenParseLoop runes op cl rest (i + 1) false (some w) ws
              (frames ++ [closed]) extra
        else
          tokenParseLoop runes op cl rest (i + 1) false (some f) work frames extra
      | none =>
        tokenParseLoop runes op cl rest (i + 1) false none work frames (extra.push c)

/-- `TokenStack.Parse(input, prefixStr, suffixStr)`. -/
def tokenParse (input op cl : String) : TokenStack :=
  tokenParseLoop input.toList op.toList cl.toList input.toList 0 false none [] [] ""

/-- `VAR_PREFIX`. -/
def varOpen : String := "@\x7b"

/-- `VAR_SUFFIX`. -/
def varClose : String := "\x7d"

/-- `CMD_PREFIX`. -/
def cmdOpen : String := "$("

/-- `CMD_SUFFIX`. -/
def cmdClose : String := ")"

/-- `isVar`: has the variable delimiters around it. -/
def isVarStr (s : String) : Bool :=
  goHasPre s varOpen && startsWithL varClose.toList.reverse s.toList.reverse

/-- `isCmd`: has the subcommand delimiters around it. -/
def isCmdStr (s : String) : Bool :=
  goHasPre s cmdOpen && startsWithL cmdClose.toList.reverse s.toList.reverse

/-- `input[len(PRE) : len(input)-len(SUF)]`, the interior of a delimited frame. -/
def stripEnclosing (s op cl : String) : String :=
  ⟨(s.toList.drop op.toList.length).take
    (s.toList.length - cl.toList.length - op.toList.length)⟩

/-! ## Data-store variable paths (`extractVariablePath`, `resolveVariable`,
`PutVariable`) -/

/-- `VariableKey` (subcommand.go). -/
structure VariableKey where
  name : String
  isArray : Bool
  isLast : Bool
deriving Repr, DecidableEq

/-- The per-dot-segment rune loop of `extractVariablePath`: `ks` is the whole
segment (for the `k[:i]` slice), the list argument is `ks.drop i`. -/
def extractKeysLoop (ks : List Char) :
    List Char → Nat → Bool → String → List VariableKey → List VariableKey
  | [], _, hasIndex, _, acc =>
    if hasIndex then acc else acc ++ [⟨goTrimSpace ⟨ks⟩, false, false⟩]
  | c :: rest, i, hasIndex, index, acc =>
    if c = '[' then
      if hasIndex then extractKeysLoop ks rest (i + 1) true "" acc
      else
        extractKeysLoop ks rest (i + 1) true index
          (acc ++ [⟨goTrimSpace ⟨ks.take i⟩, true, false⟩])
    else if c ≠ ']' ∧ hasIndex then
      extractKeysLoop ks rest (i + 1) hasIndex (index.push c) acc
    else if c = ']' then
      extractKeysLoop ks rest (i + 1) hasIndex index
        (acc ++ [⟨goTrimSpace index, false, false⟩])
    else extractKeysLoop ks rest (i + 1) hasIndex index acc

/-- Mark the final key (`expandedKeys[len-1].IsLast = true`). -/
def markLastVar : List VariableKey → List VariableKey
  | [] => []
  | [k] => [{ k with isLast := true }]
  | k :: rest => k :: markLastVar rest

/-- `extractVariablePath` (subcommand.go, lines 260-296). -/
def extractVariablePath (variableName : String) : List VariableKey :=
  let keys := goSplitOn variableName '.'
  markLastVar (keys.foldl (fun acc k => extractKeysLoop k.toList k.toList 0 false "" acc) [])

/-- The three keyed-store error kinds (`MissingDSKeyFmt`, `BadIndexDSFmt`,
`IndexExceedsDSFmt`), carrying the path the Go format string embeds. -/
inductive DSErr where
  | missingKey (path : String)
  | badIndex (path : String)
  | indexExceeds (path : String)
deriving Repr, DecidableEq

/-- Result of a Go computation that can return a value, return an error, or
abort with a runtime panic. -/
inductive Outcome (ε α : Type) where
  | ok (a : α)
  | err (e : ε)
  | panic
deriving Repr, DecidableEq

/-- The key walk of `resolveVariable` (subcommand.go, lines 305-334); the
`case DataStore` and `case map[string]interface\x7b\x7d` arms coincide on the
value tree. `v[idx]` with `idx` equal to the slice length is a Go runtime
index-out-of-range abort, reported as `.panic`. -/
def resolveWalk (cleanedVar : String) : List VariableKey → Value → Outcome DSErr Value
  | [], node => .ok node
  | k :: rest, node =>
    match node with
    | .map m =>
      match dsGet m k.name with
      | none => .err (.missingKey cleanedVar)
      | some next => resolveWalk cleanedVar rest next
    | .seq items =>
      match goParseUint64 k.name with
      | none => .err (.badIndex cleanedVar)
      | some idx =>
        if idx > items.length then .err (.indexExceeds cleanedVar)
        else
          match items.get? idx with
          | some v => resolveWalk cleanedVar rest v
          | none => .panic
    | _ => .err (.missingKey cleanedVar)

/-- `DataStore.resolveVariable` (subcommand.go, lines 298-337): strips the
`@\x7b...\x7d` delimiters and walks the store. -/
def resolveVariable (store : DataStore) (varRef : String) : Outcome DSErr Value :=
  let cleanedVar := stripEnclosing varRef varOpen varClose
  resolveWalk cleanedVar (extractVariablePath cleanedVar) (.map store)

/-- The key walk of `DataStore.PutVariable` (subcommand.go, lines 354-464),
rendered functionally: the Go parent-pointer rebinding after an array resize
corresponds to rebuilding the surrounding constructor. A key addressing a
scalar node matches no `switch` arm and is skipped; running out of keys with
no `IsLast` write leaves the tree unchanged. As in `resolveWalk`, indexing at
exactly the slice length (the resize guard is `idx > len`) is `.panic`. -/
def putWalk (varName : String) (value : Value) :
    List VariableKey → Value → Outcome DSErr Value
  | [], node => .ok node
  | k :: rest, node =>
    match node with
    | .map m =>
      if k.isLast then .ok (.map (dsPut m k.name value))
      else
        let next :=
          match dsGet m k.name with
          | some nextNode => nextNode
          | none => if k.isArray then Value.seq [Value.null] else Value.map []
        match putWalk varName value rest next with
        | .ok child => .ok (.map (dsPut m k.name child))
        | other => other
    | .seq items =>
      match goParseUint64 k.name with
      | none => .err (.badIndex varName)
      | some idx =>
        let items' :=
          if idx > items.length then
            items ++ List.replicate (idx + 1 - items.length) Value.null
          else items
        match items'.get? idx with
        | none => .panic
        | some cur =>
          if k.isLast then .ok (.seq (items'.set idx value))
          else
            let next :=
              match cur with
              | .null => if k.isArray then Value.seq [Value.null] else Value.map []
              | other => other
            match putWalk varName value rest next with
            | .ok child => .ok (.seq (items'.set idx child))
            | other => other
    | other => putWalk varName value rest other

/-- `DataStore.PutVariable` (subcommand.go, lines 340-466). -/
def putVariable (store : DataStore) (varName : String) (value : Value) :
    Outcome DSErr DataStore :=
  match putWalk varName value (extractVariablePath varName) (.map store) with
  | .ok (.map m) => .ok m
  | .ok _ => .ok store
  | .err e => .err e
  | .panic => .panic

/-! ## `DataStore.ExpandVariable` (subcommand.go, lines 472-544) -/

/-- Errors raised by variable expansion: a store-read error propagated from
`resolveVariable`, or composing a nested frame whose inner variable did not
resolve to a string. -/
inductive ExpandErr where
  | dataStore (e : DSErr)
  | notAString (frameTok innerTok : String)
deriving Repr, DecidableEq

/-- The frame loop of `ExpandVariable`: resolve each frame innermost-first,
update the output string (or the direct result) for top-level frames, and
compose resolved text into every later frame that contains this one's token —
a nested composition position whose inner variable did not resolve to a string
(the `resolvedVar.(string)` type assertion) is an error. -/
def expandLoop (store : DataStore) :
    Nat → List (TokenStackFrame × String) → String → Option Value →
    Outcome ExpandErr (String × Option Value)
  | _, [], outputString, result => .ok (outputString, result)
  | 0, l, outputString, result => .ok (outputString, result)
  | fuel + 1, (f, rvn) :: rest, outputString, result =>
    let resolved : Outcome DSErr (Option Value) :=
      if isVarStr rvn then
        match resolveVariable store rvn with
        | .ok v => .ok (some v)
        | .err e => .err e
        | .panic => .panic
      else .ok none
    match resolved with
    | .err e => .err (.dataStore e)
    | .panic => .panic
    | .ok resolvedVar =>
      let (outputString', result') :=
        if f.nested = 0 then
          if outputString ≠ "" then
            (goReplaceAll outputString f.token (varToString resolvedVar []), result)
          else (outputString, resolvedVar)
        else (outputString, result)
      match resolvedVar with
      | some (.str sv) =>
        expandLoop store fuel
          (rest.map (fun fr =>
            if goContains fr.2 f.token then (fr.1, goReplaceAll fr.2 f.token sv)
            else fr))
          outputString' result'
      | _ =>
        match rest.find? (fun fr => goContains fr.2 f.token) with
        | some fr0 => .err (.notAString fr0.1.token f.token)
        | none => expandLoop store fuel rest outputString' result' 

/-- `DataStore.ExpandVariable`: `.ok none` is Go's nil result. -/
def expandVariable (store : DataStore) (input : String) :
    Outcome ExpandErr (Option Value) :=
  let vars := tokenParse input varOpen varClose
  if vars.frames.length = 0 then .ok (some (.str input))
  else
    let outputString := if vars.extra ≠ "" then input else ""
    let toResolve := vars.frames.map (fun v => (v, v.token))
    match expandLoop store toResolve.length toResolve outputString none with
    | .ok (outputString', result) =>
      .ok (if outputString' ≠ "" then some (.str outputString') else result)
    | .err e => .err e
    | .panic => .panic

/-! ## `ExecuteCommand` (subcommand.go, lines 121-171) -/

/-- Modelled from the spec: the external process runner behind
`executeCommandStr` (§6 `run_command`; process execution is an external
interface). A runner maps the full `$(...)` frame text to either the
command's stdout (one trailing newline already stripped, as `executeCommandStr`
does) or an execution error message. -/
def CmdRunner : Type := String → Except String String

/-- The frame loop of `ExecuteCommand`: run each frame innermost-first (frames
that no longer look like commands are skipped but still substituted as the
empty string), update the top-level output, and substitute results into later
frames that contain this one. -/
def executeLoop (runner : CmdRunner) :
    List (TokenStackFrame × String) → String → Except String String
  | [], outputString => .ok outputString
  | (f, ecr) :: rest, outputString =>
    let ran : Except String String :=
      if isCmdStr ecr then
        match runner ecr with
        | .ok out => .ok out
        | .error e => .error ("Execution error: " ++ e)
      else .ok ""
    match ran with
    | .error e => .error e
    | .ok commandOutput =>
      let outputString' :=
        if f.nested = 0 then goReplaceAll outputString f.token commandOutput
        else outputString
      let rest' := rest.map (fun fr =>
        if goContains fr.2 f.token then (fr.1, goReplaceAll fr.2 f.token commandOutput)
        else fr)
      executeLoop runner rest' outputString'
termination_by l _ => l.length
decreasing_by simp [List.length_map]

/-- `ExecuteCommand`, parameterized by the external runner. -/
def executeCommand (runner : CmdRunner) (input : String) : Except String String :=
  let commands := tokenParse input cmdOpen cmdClose
  if commands.frames.length = 0 then .ok input
  else
    let toExecute := commands.frames.map (fun v => (v, v.token))
    executeLoop runner toExecute input

/-! ## String-token splitting and quote promotion (token-stack.go) -/

/-- `TokenQuoteState`. -/
structure TokenQuoteState where
  inDoubleQuote : Bool
  inSingleQuote : Bool
  inBacktickQuote : Bool
deriving Repr, DecidableEq

/-- The all-clear quote state. -/
def quoteStateInit : TokenQuoteState := ⟨false, false, false⟩

/-- `TokenQuoteState.InQuote`. -/
def inQuote (ts : TokenQuoteState) : Bool :=
  ts.inSingleQuote || ts.inDoubleQuote || ts.inBacktickQuote

/-- The backtick character, by code point. -/
def backtickChar : Char := Char.ofNat 96

/-- `TokenQuoteState.IsQuote`. -/
def isQuoteChar (c : Char) : Bool :=
  c = '"' || c = '\'' || c = backtickChar

/-- `TokenQuoteState.SetQuote`. -/
def setQuote (ts : TokenQuoteState) (c : Char) : TokenQuoteState :=
  if c = '"' then { ts with inDoubleQuote := true }
  else if c = '\'' then { ts with inSingleQuote := true }
  else if c = backtickChar then { ts with inBacktickQuote := true }
  else ts

/-- `TokenQuoteState.UnsetQuote`. -/
def unsetQuote (ts : TokenQuoteState) (c : Char) : TokenQuoteState :=
  if c = '"' then { ts with inDoubleQuote := false }
  else if c = '\'' then { ts with inSingleQuote := false }
  else if c = backtickChar then { ts with inBacktickQuote := false }
  else ts

/-- `isDelimiter` (Go `strings.ContainsRune`). -/
def isDelim (delims : String) (c : Char) : Bool :=
  delims.toList.contains c

/-- The scanning loop of `SplitStringTokens`: `sanitized` is the trimmed whole
input (for slicing), the list argument is `sanitized.drop i`. The Go loop also
stops when `tokenStartPos` reaches the input length, in which case the
post-loop remainder append is skipped too. -/
def splitTokensLoop (sanitized : List Char) (delims : String) :
    List Char → Nat → Nat → Bool → TokenQuoteState → List String → List String
  | [], _, tokenStart, _, _, tokens =>
    if tokenStart < sanitized.length then
      let t := goTrimSpace ⟨sanitized.drop tokenStart⟩
      if t ≠ "" then tokens ++ [t] else tokens
    else tokens
  | c :: rest, i, tokenStart, escaped, qs, tokens =>
    if ¬ tokenStart < sanitized.length then tokens
    else if c = '\\' then
      splitTokensLoop sanitized delims rest (i + 1) tokenStart true qs tokens
    else if escaped then
      splitTokensLoop sanitized delims rest (i + 1) tokenStart false qs tokens
    else if ¬ inQuote qs ∧ isDelim delims c then
      let t := goTrimSpace ⟨(sanitized.drop tokenStart).take (i - tokenStart)⟩
      splitTokensLoop sanitized delims rest (i + 1) (i + 1) false qs
        (if t ≠ "" then tokens ++ [t] else tokens)
    else if inQuote qs ∧ isDelim delims c then
      splitTokensLoop sanitized delims rest (i + 1) tokenStart false qs tokens
    else if ¬ inQuote qs ∧ isQuoteChar c then
      splitTokensLoop sanitized delims rest (i + 1) tokenStart false (setQuote qs c) tokens
    else if inQuote qs ∧ isQuoteChar c then
      splitTokensLoop sanitized delims rest (i + 1) tokenStart false (unsetQuote qs c)
        tokens
    else splitTokensLoop sanitized delims rest (i + 1) tokenStart false qs tokens

/-- `SplitStringTokens` (token-stack.go, lines 205-255). -/
def SplitStringTokens (input : String) (delims : String) : List String :=
  let sanitized := (goTrimSpace input).toList
  splitTokensLoop sanitized delims sanitized 0 0 false quoteStateInit []

/-- Number of backslashes the quote-promotion loop keeps from a maximal run of
`n`: a single escape is dropped, an even run loses one, a longer odd run loses
two. -/
def collapsedRunLen (n : Nat) : Nat :=
  if n = 1 then 0 else if n % 2 = 0 then n - 1 else n - 2

/-- The interior scan of `PromoteTokenQuotes`: `pending` counts the
backslashes of the current run. -/
def collapseRunsAux : List Char → Nat → List Char
  | [], pending => List.replicate (collapsedRunLen pending) '\\'
  | c :: rest, pending =>
    if c = '\\' then collapseRunsAux rest (pending + 1)
    else
      List.replicate (collapsedRunLen pending) '\\' ++ c :: collapseRunsAux rest 0

/-- Promotion of a single token (`PromoteTokenQuotes` loop body, token-stack.go
lines 263-312): a token whose first and last characters are quote characters is
stripped of them and has each interior backslash run collapsed. (On a
one-character quoted token the Go slice `rs[1:0]` would abort; the splitters
feeding this function never produce such a token.) -/
def promoteToken (s : String) : String :=
  match s.toList with
  | [] => s
  | c :: rest =>
    if rest ≠ [] ∧ isQuoteChar c ∧ isQuoteChar ((c :: rest).getLast (by simp)) then
      ⟨collapseRunsAux rest.dropLast 0⟩
    else s

/-- `PromoteTokenQuotes` (token-stack.go, lines 260-314). -/
def PromoteTokenQuotes (tokens : List String) : List String :=
  tokens.map promoteToken

/-! ## JSON paths (obj-utils.go) -/

/-- `JSON_OBJECT_ROOT_SYM`. -/
def jsonObjectRootSym : String := "$$"

/-- `JsonKey` (obj-utils.go). -/
structure JsonKey where
  name : String
  isArray : Bool
  isArrayElement : Bool
  isLast : Bool
  isObject : Bool
deriving Repr, DecidableEq

/-- A plain object key. -/
def jsonField (n : String) : JsonKey := ⟨n, false, false, false, false⟩

/-- `sanitizeQuotedIndex`: trim one leading and one trailing copy of each quote
character in turn. -/
def sanitizeQuotedIndex (key : String) : String :=
  ['"', backtickChar, '\''].foldl
    (fun cleaned c =>
      goTrimOneSuf (goTrimOnePre cleaned ⟨[c]⟩) ⟨[c]⟩)
    key

/-- Mark the previous key as an array when an index key follows it. -/
def markPrevArray : List JsonKey → List JsonKey
  | [] => []
  | [k] => [{ k with isArray := true }]
  | k :: rest => k :: markPrevArray rest

/-- Mark the final key (`expandedKeys[len-1].IsLast = true`). -/
def markLastJson : List JsonKey → List JsonKey
  | [] => []
  | [k] => [{ k with isLast := true }]
  | k :: rest => k :: markLastJson rest

/-- Mark the last accumulated key as an object unless it is array-like
(the `index < len(keys)` guard in the source is always true inside the loop). -/
def markPrevObject : List JsonKey → List JsonKey
  | [] => []
  | [k] => [if ¬ k.isArray ∧ ¬ k.isArrayElement then { k with isObject := true } else k]
  | k :: rest => k :: markPrevObject rest

/-- Per-dot-segment expansion inside `SplitJsonPath`. -/
def splitJsonSegment (acc : List JsonKey) (k : String) : List JsonKey :=
  let keyStrs := PromoteTokenQuotes (SplitStringTokens k "[]")
  let acc' :=
    if keyStrs.length > 0 then
      keyStrs.foldl
        (fun acc2 ks =>
          match goParseInt ks 64 with
          | some _ => markPrevArray acc2 ++ [⟨ks, false, true, false, false⟩]
          | none => acc2 ++ [jsonField (sanitizeQuotedIndex ks)])
        acc
    else
      acc ++ [{ jsonField k with isObject := goContains k "\x7b\x7d" }]
  markPrevObject acc'

/-- `SplitJsonPath` (obj-utils.go, lines 156-199). -/
def SplitJsonPath (jsonPath : String) : List JsonKey :=
  let keys := SplitStringTokens jsonPath "."
  if keys.length = 0 then []
  else markLastJson (keys.foldl splitJsonSegment [])

/-- One step of `GetJsonPath`'s rendering. -/
def jsonPathPiece (k : JsonKey) : String × Bool :=
  if k.isArrayElement then ("[" ++ k.name ++ "]", true)
  else if k.isObject then ("." ++ k.name, false)
  else if k.isArray then ("." ++ k.name, false)
  else ("." ++ k.name, true)

/-- The loop of `GetJsonPath`: `keys` is the whole list (for the `keys[i:]`
remainder), the list argument is `keys.drop i`. `remainingKeys` is assigned
before the depth check, so a fully processed path still reports its final key
as remaining. -/
def getJsonPathLoop (keys : List JsonKey) (maxDepth : Nat) :
    List JsonKey → Nat → String → Nat → String × List JsonKey
  | [], _, pathStr, _ => (pathStr, keys.drop (keys.length - 1))
  | k :: rest, i, pathStr, nodeCount =>
    if nodeCount ≥ maxDepth then (pathStr, keys.drop i)
    else
      let (piece, counts) := jsonPathPiece k
      getJsonPathLoop keys maxDepth rest (i + 1) (pathStr ++ piece)
        (if counts then nodeCount + 1 else nodeCount)

/-- `GetJsonPath` (obj-utils.go, lines 119-143). -/
def GetJsonPath (keys : List JsonKey) (maxDepth : Nat) : String × List JsonKey :=
  match keys with
  | [] => ("", [])
  | _ => getJsonPathLoop keys maxDepth keys 0 "" 0

/-- The key walk of `GetJsonValue` (obj-utils.go, lines 318-341); identical to
`resolveWalk` except that error messages carry the whole `jsonPath` and that a
scalar node hits the explicit `default` arm. As there, `v[idx]` at exactly the
slice length is a Go abort. -/
def getJsonWalk (jsonPath : String) : List JsonKey → Value → Outcome DSErr Value
  | [], node => .ok node
  | k :: rest, node =>
    match node with
    | .map m =>
      match dsGet m k.name with
      | none => .err (.missingKey jsonPath)
      | some next => getJsonWalk jsonPath rest next
    | .seq items =>
      match goParseUint64 k.name with
      | none => .err (.badIndex jsonPath)
      | some idx =>
        if idx > items.length then .err (.indexExceeds jsonPath)
        else
          match items.get? idx with
          | some v => getJsonWalk jsonPath rest v
          | none => .panic
    | _ => .err (.missingKey jsonPath)

/-- `GetJsonValue` (obj-utils.go, lines 308-344). An empty key list would make
the Go code abort on `expandedKeys[0]`; a leading index key reads the root
symbol entry (a missing one leaves the nil node to the `default` arm). -/
def GetJsonValue (src : DataStore) (jsonPath : String) : Outcome DSErr Value :=
  match SplitJsonPath jsonPath with
  | [] => .panic
  | k0 :: rest =>
    let node :=
      if k0.isArrayElement then
        match dsGet src jsonObjectRootSym with
        | some v => v
        | none => Value.null
      else Value.map src
    getJsonWalk jsonPath (k0 :: rest) node

/-! ## Numeric expressions and existence checks (matcher.go) -/

/-- `$<`. -/
def opLT : String := "$<"

/-- `$<=`. -/
def opLTE : String := "$<="

/-- `$>`. -/
def opGT : String := "$>"

/-- `$>=`. -/
def opGTE : String := "$>="

/-- `$any`. -/
def kwAny : String := "$any"

/-- `$notEmpty`. -/
def kwNotEmpty : String := "$notEmpty"

/-- `ReceivedNullErrFmt`. -/
def receivedNullErr : String := "Received null value when non-null value was expected"

/-- `ExpectedNullErrFmt`. -/
def expectedNullErr : String := "Expected null value when non-null value was returned"

/-- `NumExpressionErrFmt` instantiated. -/
def numExprErrFmt (op : String) (val number : Int) : String :=
  "Expected a result evaluating to: " ++ op ++ " " ++ toString val ++ " but got " ++
    toString number ++ " instead"

/-- `ValueErrFmt` instantiated. -/
def valueErrFmt (expected actual : String) : String :=
  "Expected value '" ++ expected ++ "' did not match the actual value '" ++ actual ++ "'"

/-- `ArrayLengthErrFmt` instantiated. -/
def arrayLengthErrFmt (op : String) (want got : Int) : String :=
  "Expected array with length " ++ op ++ " " ++ toString want ++ " but found length " ++
    toString got ++ " instead."

/-- `MismatchedMatcher` instantiated (the second argument stands in for Go's
`reflect.TypeOf` rendering). -/
def mismatchedMatcherFmt (want gotType : String) : String :=
  "Test expected a value type matching '" ++ want ++ "' but response field is of type '" ++
    gotType ++ "'."

/-- Go `reflect.TypeOf` names for the dynamic types the value tree models. -/
def goTypeName : Option Value → String
  | none => "<nil>"
  | some .null => "<nil>"
  | some (.bool _) => "bool"
  | some (.int _) => "int"
  | some (.str _) => "string"
  | some (.seq _) => "[]interface \x7b\x7d"
  | some (.map _) => "map[string]interface \x7b\x7d"

/-- A `strconv.ParseInt` failure inside `evaluateNumExpr`. -/
inductive NumErr where
  | parse
deriving Repr, DecidableEq

/-- The operator loop of `evaluateNumExpr` (matcher.go, lines 296-320): every
operator whose text is a leading substring of the expression is applied in
turn (there is no `break`), each assignment overwriting the previous status;
a parse failure returns immediately with an empty message. -/
def evalNumOps (exprStr : String) (number : Int) :
    List String → Bool × Bool × String → Bool × Bool × String × Option NumErr
  | [], (s, e, m) => (s, e, m, none)
  | op :: rest, (s, e, m) =>
    if goHasPre exprStr op then
      match goParseInt (goTrimSpace (goReplaceAll exprStr op "")) 32 with
      | none => (false, true, "", some .parse)
      | some val =>
        let status :=
          if op = opLT then decide (number < val)
          else if op = opLTE then decide (number ≤ val)
          else if op = opGT then decide (val < number)
          else decide (val ≤ number)
        let m' := if status then m else numExprErrFmt (goTrimOnePre op "$") val number
        evalNumOps exprStr number rest (status, true, m')
    else evalNumOps exprStr number rest (s, e, m)

/-- `evaluateNumExpr` (matcher.go, lines 290-323): `(status, evaluated,
message, err)`. -/
def evaluateNumExpr (exprStr : String) (number : Int) :
    Bool × Bool × String × Option NumErr :=
  evalNumOps exprStr number [opGTE, opLTE, opGT, opLT] (false, false, "")

/-- `handleExistence` (matcher.go, lines 278-288): `(status, passthrough,
message)`. -/
def handleExistence (node : Option Value) (exGiven canBeNull : Bool) :
    Bool × Bool × String :=
  if node.isNone ∧ exGiven ∧ ¬canBeNull then (false, false, receivedNullErr)
  else if node.isNone ∧ ¬exGiven then (true, false, "[Expected] " ++ goFormatIface node)
  else if node.isSome ∧ ¬exGiven then (false, false, expectedNullErr)
  else (false, true, "")

/-- `FieldMatcherProps` (matcher.go): the shared matcher state, including the
mutable `ErrorStr` scratch slot. -/
structure FieldMatcherProps where
  existsFlag : Bool
  nullable : Bool
  errorStr : String
  dsName : String
  priority : Int
deriving Repr, DecidableEq

/-- `FieldMatcherProps.ValidateExistance` (matcher.go, lines 94-110): returns
the updated props (the `ErrorStr` writes) with `(status, passthrough)`. -/
def validateExistanceProps (m : FieldMatcherProps) (node : Option Value) :
    FieldMatcherProps × Bool × Bool :=
  if node.isNone ∧ m.existsFlag ∧ ¬m.nullable then
    ({ m with errorStr := receivedNullErr }, false, false)
  else if node.isNone ∧ ¬m.existsFlag then
    ({ m with errorStr := "[Expected] " ++ goFormatIface node }, true, false)
  else if node.isSome ∧ ¬m.existsFlag then
    ({ m with errorStr := expectedNullErr }, false, false)
  else (m, false, true)

/-! ## Matcher variants -/

/-- `BoolMatcher` (matcher-bool.go). -/
structure BoolMatcher where
  value : Option Bool
  pattern : Option String
  props : FieldMatcherProps
deriving Repr, DecidableEq

/-- `ArrayMatcher` (matcher-array.go). -/
structure ArrayMatcher where
  length : Option Int
  lengthStr : Option String
  sorted : Bool
  props : FieldMatcherProps
deriving Repr, DecidableEq

/-- `ObjectMatcher` (matcher-obj.go). -/
structure ObjectMatcher where
  props : FieldMatcherProps
deriving Repr, DecidableEq

/-- The matcher variants the embedded evaluator dispatches over (the Go
`FieldMatcher` interface). -/
inductive FieldMatcher where
  | bool (m : BoolMatcher)
  | array (m : ArrayMatcher)
  | obj (m : ObjectMatcher)
deriving Repr, DecidableEq

/-- The shared props of a matcher. -/
def matcherProps : FieldMatcher → FieldMatcherProps
  | .bool m => m.props
  | .array m => m.props
  | .obj m => m.props

/-- Replace the shared props of a matcher. -/
def withProps : FieldMatcher → FieldMatcherProps → FieldMatcher
  | .bool m, p => .bool { m with props := p }
  | .array m, p => .array { m with props := p }
  | .obj m, p => .obj { m with props := p }

/-- `GetPriority`. -/
def getPriorityM (m : FieldMatcher) : Int := (matcherProps m).priority

/-- `Error()`. -/
def matcherError (m : FieldMatcher) : String := (matcherProps m).errorStr

/-- `SetError` (the `StringMatcher` override does not apply to these
variants). -/
def setErrorM (m : FieldMatcher) (e : String) : FieldMatcher :=
  withProps m { matcherProps m with errorStr := e }

/-- `ValidateExistance` dispatched through the shared props. -/
def validateExistanceM (m : FieldMatcher) (node : Option Value) :
    FieldMatcher × Bool × Bool :=
  let (p', status, pass) := validateExistanceProps (matcherProps m) node
  (withProps m p', status, pass)

/-- Errors a matcher `Match` call can return (or aborts it can propagate). -/
inductive MatchErr where
  | badVar (pat : String)
  | dsErr (e : DSErr)
  | parseIndex
  | panicked
deriving Repr, DecidableEq

/-- Result of one matcher `Match` call: status, the matcher-local capture
store, the propagated error, and the matcher with its updated `ErrorStr`. -/
structure MatchOut (α : Type) where
  status : Bool
  store : DataStore
  err : Option MatchErr
  matcher : α
deriving Repr

/-- The final capture step shared by the matcher variants
(`if status && m.DSName != "" \x7b err = store.PutVariable(m.DSName, responseValue) \x7d`
on the fresh matcher-local store). -/
def captureStore (status : Bool) (dsName : String) (rv : Option Value) :
    DataStore × Option MatchErr :=
  if status ∧ dsName ≠ "" then
    match putVariable [] dsName (match rv with | some v => v | none => Value.null) with
    | .ok s => (s, none)
    | .err e => ([], some (.dsErr e))
    | .panic => ([], some .panicked)
  else ([], none)

/-- `BoolMatcher.Match` (matcher-bool.go, lines 30-74). The pattern branch's
success flag is the source's `status = err != nil && result`, with `err` the
(block-scoped) `strconv.ParseBool` error — so a well-formed literal can never
set `status`, and an unparseable pattern succeeds exactly on a `false`
response. -/
def boolMatcherMatch (m0 : BoolMatcher) (responseValue : Option Value)
    (ds : DataStore) : MatchOut BoolMatcher :=
  let m := { m0 with props := { m0.props with errorStr := "" } }
  match responseValue with
  | some (.bool typed) =>
    let afterVal : Outcome MatchErr (Bool × BoolMatcher) :=
      match m.value with
      | some v =>
        let status := v = typed
        let m :=
          if status then m
          else { m with props := { m.props with
            errorStr := valueErrFmt (goFormat (.bool v)) (goFormat (.bool typed)) } }
        .ok (status, m)
      | none =>
        match m.pattern with
        | some pat =>
          match expandVariable ds pat with
          | .err _ => .err (.badVar pat)
          | .panic => .panic
          | .ok resolved =>
            let resolvedStr := varToString resolved [pat]
            if resolvedStr = kwAny then .ok (true, m)
            else
              let parsed := goParseBool resolvedStr
              let res := match parsed with | some b => b | none => false
              let result := res = typed
              let m :=
                if result then m
                else { m with props := { m.props with
                  errorStr := valueErrFmt (goFormat (.bool res)) (goFormat (.bool typed)) } }
              .ok (parsed.isNone && result, m)
        | none => .ok (false, m)
    match afterVal with
    | .err e => { status := false, store := [], err := some e, matcher := m }
    | .panic => { status := false, store := [], err := some .panicked, matcher := m }
    | .ok (status, m) =>
      let m :=
        if status then { m with props := { m.props with
          errorStr := goFormat (.bool typed) } }
        else m
      let (store, cerr) := captureStore status m.props.dsName responseValue
      { status := status, store := store, err := cerr, matcher := m }
  | other =>
    { status := false, store := [],
      err := none,
      matcher := { m with props := { m.props with
        errorStr := mismatchedMatcherFmt "bool" (goTypeName other) } } }

/-- `ArrayMatcher.Match` (matcher-array.go, lines 51-102). In the length-string
branch the `evaluateNumExpr` error is assigned to the `err` shadowed by the
`:=` of the `ExpandVariable` call and is dropped; the returned error comes
only from the capture write. -/
def arrayMatcherMatch (m0 : ArrayMatcher) (responseValue : Option Value)
    (ds : DataStore) : MatchOut ArrayMatcher :=
  let m := m0
  let typed? : Option (List Value) :=
    match responseValue with
    | none => some []
    | some .null => some []
    | some (.seq items) => some items
    | some _ => none
  match typed? with
  | none =>
    { status := false, store := [], err := none,
      matcher := { m with props := { m.props with
        errorStr := mismatchedMatcherFmt "array" (goTypeName responseValue) } } }
  | some typedResponseValue =>
    let responseLength : Int := typedResponseValue.length
    let afterLen : Outcome MatchErr (Bool × ArrayMatcher) :=
      match m.length with
      | some want =>
        let status := responseLength = want
        let m :=
          if status then m
          else { m with props := { m.props with
            errorStr := arrayLengthErrFmt "=" want responseLength } }
        .ok (status, m)
      | none =>
        match m.lengthStr with
        | some lenStr =>
          match expandVariable ds lenStr with
          | .err _ => .err (.badVar lenStr)
          | .panic => .panic
          | .ok resolved =>
            let s := varToString resolved [lenStr]
            if s = kwNotEmpty then .ok (decide (responseLength > 0), m)
            else if s = kwAny then .ok (true, m)
            else
              let (status, evaluated, msg, _numErr) := evaluateNumExpr s responseLength
              let m := { m with props := { m.props with errorStr := msg } }
              let m :=
                if evaluated ∧ ¬status then
                  { m with props := { m.props with
                    errorStr := "[length] " ++ m.props.errorStr } }
                else m
              .ok (status, m)
        | none => .ok (false, m)
    match afterLen with
    | .err e => { status := false, store := [], err := some e, matcher := m }
    | .panic => { status := false, store := [], err := some .panicked, matcher := m }
    | .ok (status, m) =>
      let m :=
        if status then { m with props := { m.props with
          errorStr := "[length] " ++ toString responseLength } }
        else m
      let (store, cerr) := captureStore status m.props.dsName responseValue
      { status := status, store := store, err := cerr, matcher := m }

/-- `ObjectMatcher.Match` (matcher-obj.go, lines 35-60); this variant runs
`handleExistence` itself before the shape check. -/
def objMatcherMatch (m0 : ObjectMatcher) (responseValue : Option Value)
    (_ds : DataStore) : MatchOut ObjectMatcher :=
  let m := { m0 with props := { m0.props with errorStr := "" } }
  let (hStatus, hPass, hMsg) :=
    handleExistence responseValue m.props.existsFlag false
  if ¬hPass then
    { status := hStatus, store := [], err := none,
      matcher := { m with props := { m.props with errorStr := hMsg } } }
  else
    match responseValue with
    | some (.map fields) =>
      let m := { m with props := { m.props with errorStr := "\x7b\x7d" } }
      let (store, cerr) := captureStore true m.props.dsName (some (.map fields))
      { status := true, store := store, err := cerr, matcher := m }
    | other =>
      { status := false, store := [], err := none,
        matcher := { m with props := { m.props with
          errorStr := mismatchedMatcherFmt "object" (goTypeName other) } } }

/-- `FieldMatcher.Match` dispatch. -/
def matcherMatch (m : FieldMatcher) (responseValue : Option Value)
    (ds : DataStore) : MatchOut FieldMatcher :=
  match m with
  | .bool b =>
    let r := boolMatcherMatch b responseValue ds
    ⟨r.status, r.store, r.err, .bool r.matcher⟩
  | .array a =>
    let r := arrayMatcherMatch a responseValue ds
    ⟨r.status, r.store, r.err, .array r.matcher⟩
  | .obj o =>
    let r := objMatcherMatch o responseValue ds
    ⟨r.status, r.store, r.err, .obj r.matcher⟩

/-- Whether the matcher is an `*ObjectMatcher` (the type assertion in
`MatchConfig`). -/
def isObjMatcherB : FieldMatcher → Bool
  | .obj _ => true
  | _ => false

/-! ## Matcher paths, configs and the node cache (matcher.go) -/

/-- `FieldMatcherKey`. -/
structure FieldMatcherKey where
  name : String
  realKey : JsonKey
deriving Repr, DecidableEq

/-- `FieldMatcherPath`. -/
structure FieldMatcherPath where
  keys : List FieldMatcherKey
  sorted : Bool
  isExecutable : Bool
deriving Repr, DecidableEq

/-- `FieldMatcherPath.getObjectPath` (matcher.go, lines 140-153). -/
def getObjectPath (f : FieldMatcherPath) (length : Nat) :
    String × List FieldMatcherKey :=
  let jsonKeys := f.keys.map (·.realKey)
  let (p, remaining) := GetJsonPath jsonKeys length
  (p, f.keys.drop (f.keys.length - remaining.length))

/-- `FieldMatcherPath.GetPath`. -/
def getPathStr (f : FieldMatcherPath) : String :=
  (getObjectPath f f.keys.length).1

/-- `FieldMatcherPath.GetDisplayPath`. -/
def getDisplayPath (f : FieldMatcherPath) : String :=
  let jsonKeys := f.keys.map (fun k => { k.realKey with name := k.name })
  (GetJsonPath jsonKeys f.keys.length).1

/-- `FieldMatcherConfig`. -/
structure FieldMatcherConfig where
  matcher : FieldMatcher
  objectKeyPath : FieldMatcherPath
deriving Repr, DecidableEq

/-- `FieldMatcherResult`. -/
structure FieldMatcherResult where
  status : Bool
  objectKeyPath : String
  error : String
  showExtendedMsg : Bool
  ignoreResult : Bool
deriving Repr, DecidableEq

/-- The node cache (`NodeCache.Cache`): path string to cached node, which Go
stores as a possibly-nil `interface\x7b\x7d`. -/
abbrev NodeCache := List (String × Option Value)

/-- Go map read on the node cache. -/
def cacheGet (nc : NodeCache) (k : String) : Option (Option Value) :=
  match nc with
  | [] => none
  | (k0, v0) :: rest => if k0 = k then some v0 else cacheGet rest k

/-- Go map write on the node cache. -/
def cachePut (nc : NodeCache) (k : String) (v : Option Value) : NodeCache :=
  match nc with
  | [] => [(k, v)]
  | (k0, v0) :: rest => if k0 = k then (k, v) :: rest else (k0, v0) :: cachePut rest k v

/-- The distance loop of `NodeCache.LookUp` (matcher.go, lines 217-237): probe
`getObjectPath` from the most specific path outward, returning the first
cached node (an exact hit clears the remaining keys). The fuel starts above
the key count and cannot run out before the loop guard fails. -/
def lookUpLoop (nc : NodeCache) (p : FieldMatcherPath) :
    Nat → Nat → Option Value × List FieldMatcherKey
  | distance, fuel =>
    let (nodePath, keys) := getObjectPath p (p.keys.length - distance)
    if nodePath ≠ "" ∧ (p.keys.length : Int) - 1 - distance ≥ 0 then
      match cacheGet nc nodePath with
      | some stored => (stored, if distance = 0 then [] else keys)
      | none =>
        match fuel with
        | 0 => (none, keys)
        | fuel' + 1 => lookUpLoop nc p (distance + 1) fuel'
    else (none, keys)

/-- `NodeCache.LookUp`. -/
def nodeCacheLookUp (nc : NodeCache) (p : FieldMatcherPath) :
    Option Value × List FieldMatcherKey :=
  lookUpLoop nc p 0 (p.keys.length + 1)

/-! ## Depth-first search (`ResponseMatcher.depthMatch`, matcher.go 627-685) -/

/-- `DepthMatchResponseNode`. -/
structure DepthMatchResponseNode where
  status : Bool
  node : Option Value
  nodePath : String
  matchedNodeKey : Bool
deriving Repr

/-- `DepthMatchResponse`. -/
structure DepthMatchResponse where
  foundNode : DepthMatchResponseNode
  nodeChain : List DepthMatchResponseNode
deriving Repr

/-- The zero `DepthMatchResponse` returned when nothing matches. -/
def depthNotFound : DepthMatchResponse :=
  ⟨⟨false, none, "", false⟩, []⟩

mutual

/-- `depthMatch`: try the matcher on this node (capture store and error are
discarded here, but the matcher's `ErrorStr` mutations persist), else descend;
an object-property hit must sit under a property named like the target key. -/
def depthMatch (ds : DataStore) (node : Option Value) (matcher : FieldMatcher)
    (path key : String) : DepthMatchResponse × FieldMatcher :=
  let (matcher, status0, pass) := validateExistanceM matcher node
  let (status, matcher) :=
    if pass then
      let r := matcherMatch matcher node ds
      (r.status, r.matcher)
    else (status0, matcher)
  if status then
    let found : DepthMatchResponseNode := ⟨status, node, path, false⟩
    (⟨found, [found]⟩, matcher)
  else
    match node with
    | some (.map fields) => depthMatchMap ds (.map fields) fields matcher path key
    | some (.seq items) => depthMatchSeq ds (.seq items) items 0 matcher path key
    | _ => (depthNotFound, matcher)
termination_by sizeOf node
decreasing_by all_goals simp_wf <;> omega

/-- The `map[string]interface\x7b\x7d` arm of `depthMatch`. -/
def depthMatchMap (ds : DataStore) (parent : Value)
    (fields : List (String × Value)) (matcher : FieldMatcher) (path key : String) :
    DepthMatchResponse × FieldMatcher :=
  match fields with
  | [] => (depthNotFound, matcher)
  | (k, v) :: rest =>
    let (result, matcher) := depthMatch ds (some v) matcher (path ++ "." ++ k) key
    if result.foundNode.status ∧ (¬result.foundNode.matchedNodeKey ∧ k = key) then
      let found := { result.foundNode with matchedNodeKey := true }
      (⟨found, result.nodeChain ++ [⟨false, some parent, path ++ "\x7b\x7d", false⟩]⟩,
        matcher)
    else depthMatchMap ds parent rest matcher path key
termination_by 1 + sizeOf fields
decreasing_by all_goals simp_wf <;> omega

/-- The `[]interface\x7b\x7d` arm of `depthMatch`. -/
def depthMatchSeq (ds : DataStore) (parent : Value) (items : List Value)
    (index : Nat) (matcher : FieldMatcher) (path key : String) :
    DepthMatchResponse × FieldMatcher :=
  match items with
  | [] => (depthNotFound, matcher)
  | v :: rest =>
    let (result, matcher) :=
      depthMatch ds (some v) matcher (path ++ "[" ++ toString index ++ "]") key
    if result.foundNode.status then
      (⟨result.foundNode, result.nodeChain ++ [⟨false, some parent, path, false⟩]⟩,
        matcher)
    else depthMatchSeq ds parent rest (index + 1) matcher path key
termination_by 1 + sizeOf items
decreasing_by all_goals simp_wf <;> omega

end

/-! ## `ResponseMatcher.MatchConfig` (matcher.go, lines 727-852) -/

/-- `ResponseMatcherResults`. -/
structure ResponseMatcherResults where
  status : Bool
  results : List FieldMatcherResult
  deferCheck : Bool
  err : Option MatchErr
deriving Repr

/-- The walk state and outputs of `MatchConfig` beyond its Go return value:
matcher `ErrorStr` mutations, node-cache fills, and the capture merges into
the (shared) data store. -/
structure MatchConfigOut where
  res : ResponseMatcherResults
  matcher : FieldMatcher
  cache : NodeCache
  ds : DataStore
deriving Repr

/-- Fill the node cache from a depth-search node chain
(`for i, chainNode := range result.NodeChain \x7b ... \x7d`). -/
def cacheFillChain (cfgPath : FieldMatcherPath) (chain : List DepthMatchResponseNode)
    (nc : NodeCache) : NodeCache :=
  (List.range chain.length).foldl
    (fun acc i =>
      match chain.get? i with
      | some chainNode =>
        cachePut acc (getObjectPath cfgPath (chain.length - i)).1 chainNode.node
      | none => acc)
    nc

/-- The per-key walk of `MatchConfig` (lines 750-821): map lookups null out on
a miss, sorted sequences index (a parse failure is returned as an error, a
negative literal index would abort), unsorted sequences run the depth-first
search and fill the node cache; a key addressing anything else is skipped. -/
def matchWalk (ds : DataStore) (cfgPath : FieldMatcherPath) :
    List FieldMatcherKey → Option Value → String → FieldMatcher → NodeCache →
    (Option Value × String × FieldMatcher × NodeCache × Option MatchErr)
  | [], node, pathStr, matcher, cache => (node, pathStr, matcher, cache, none)
  | p :: restKeys, node, pathStr, matcher, cache =>
    let jsonKey := p.realKey
    match node with
    | some (.map t) =>
      matchWalk ds cfgPath restKeys (dsGet t jsonKey.name) pathStr matcher cache
    | some (.seq t) =>
      if cfgPath.sorted then
        match goParseInt jsonKey.name 32 with
        | none => (node, pathStr, matcher, cache, some .parseIndex)
        | some index =>
          let pathStr := pathStr ++ "[" ++ toString index ++ "]"
          if index < (t.length : Int) then
            match t.get? index.toNat with
            | some v =>
              if 0 ≤ index then matchWalk ds cfgPath restKeys (some v) pathStr matcher cache
              else (node, pathStr, matcher, cache, some .panicked)
            | none => (node, pathStr, matcher, cache, some .panicked)
          else matchWalk ds cfgPath restKeys none pathStr matcher cache
      else
        if jsonKey.isArrayElement ∧ ¬jsonKey.isLast then
          matchWalk ds cfgPath restKeys node pathStr matcher cache
        else
          let keyMatching := ¬(jsonKey.isArrayElement ∧ jsonKey.isLast)
          let (result, matcher) := depthMatch ds (some (.seq t)) matcher pathStr jsonKey.name
          if result.foundNode.status ∧ (result.foundNode.matchedNodeKey ∨ ¬keyMatching) then
            let cache := cacheFillChain cfgPath result.nodeChain cache
            matchWalk ds cfgPath restKeys result.foundNode.node result.foundNode.nodePath
              matcher cache
          else
            matchWalk ds cfgPath restKeys none pathStr
              (setErrorM matcher "Failed locate node") cache
    | _ => matchWalk ds cfgPath restKeys node pathStr matcher cache

/-- `ResponseMatcher.MatchConfig` with a nil `keyProcessor` (the `Match`
entry point): cache probe, object-in-unsorted-array deferral, key walk,
existence check, matcher evaluation, and the immediate merge of the matcher's
captures into the shared store `r.DS`. -/
def matchConfig (cfg : FieldMatcherConfig) (response : Option Value)
    (ds : DataStore) (cache : NodeCache) : MatchConfigOut :=
  let (lookupNode, keys) := nodeCacheLookUp cache cfg.objectKeyPath
  let node : Option Value :=
    match lookupNode with
    | some n => some n
    | none => response
  let isObjM := isObjMatcherB cfg.matcher
  if isObjM ∧ ¬cfg.objectKeyPath.sorted then
    ⟨⟨false, [], true, none⟩, cfg.matcher, cache, ds⟩
  else
    match matchWalk ds cfg.objectKeyPath keys node "" cfg.matcher cache with
    | (_, _, matcher, cache, some e) =>
      ⟨⟨false, [], false, some e⟩, matcher, cache, ds⟩
    | (node, _, matcher, cache, none) =>
      let (matcher, status0, pass) := validateExistanceM matcher node
      let afterMatch : Outcome MatchErr (Bool × FieldMatcher × DataStore) :=
        if pass then
          let r := matcherMatch matcher node ds
          match r.err with
          | some e => .err e
          | none => .ok (r.status, r.matcher, dsMerge ds r.store)
        else .ok (status0, matcher, ds)
      match afterMatch with
      | .err e => ⟨⟨false, [], false, some e⟩, matcher, cache, ds⟩
      | .panic => ⟨⟨false, [], false, some .panicked⟩, matcher, cache, ds⟩
      | .ok (status, matcher, ds) =>
        let result : FieldMatcherResult :=
          { status := status
            objectKeyPath := getDisplayPath cfg.objectKeyPath
            error := matcherError matcher
            showExtendedMsg :=
              cfg.objectKeyPath.isExecutable ∨ (matcherError matcher).length ≥ 64
            ignoreResult := isObjM ∧ status }
        ⟨⟨status, [result], false, none⟩, matcher, cache, ds⟩

/-! ## `ResponseMatcher.SortConfigs` (matcher.go, lines 687-698) -/

/-- The `sort.Slice` comparison closure: the two orderings are combined with
`&&`, not lexicographically. -/
def goLessCfg (a b : FieldMatcherConfig) : Bool :=
  decide (getPriorityM a.matcher ≤ getPriorityM b.matcher) &&
    decide (a.objectKeyPath.keys.length ≤ b.objectKeyPath.keys.length)

/-- Bubble an element down through the (reversed) already-placed prefix while
the comparison holds — the inner loop of insertion sort. -/
def insertRev {α : Type} (less : α → α → Bool) (x : α) : List α → List α
  | [] => [x]
  | y :: rev => if less x y then y :: insertRev less x rev else x :: y :: rev

/-- Go's `sort.Slice` on short slices (fewer than 12 elements it runs plain
insertion sort, which this is). -/
def goSortSlice {α : Type} (less : α → α → Bool) (l : List α) : List α :=
  (l.foldl (fun rev x => insertRev less x rev) []).reverse

/-- `ResponseMatcher.SortConfigs`. -/
def SortConfigs (cfgs : List FieldMatcherConfig) : List FieldMatcherConfig :=
  goSortSlice goLessCfg cfgs

/-- `ResponseMatcher.validateEmpty` (matcher.go, lines 700-722). -/
def validateEmpty (cfgs : List FieldMatcherConfig) (response : Option Value) : Bool :=
  if cfgs.length = 0 then true
  else
    match response with
    | none => false
    | some .null => false
    | some (.map obj) => decide (obj.length > 0)
    | some (.seq ary) => decide (ary.length > 0)
    | some _ => false

/-! ## `ResponseMatcher.MatchBase` (matcher.go, lines 874-907) -/

/-- The aggregate outcome of a matcher-list evaluation: overall status, the
recorded field results, an early-abort error, and the final config list, node
cache, and (shared) data store. -/
structure MatchBaseOut where
  status : Bool
  results : List FieldMatcherResult
  err : Option MatchErr
  configs : List FieldMatcherConfig
  cache : NodeCache
  ds : DataStore
deriving Repr

/-- The `mIndex` loop of `MatchBase`, with an explicit step budget: a config
whose `MatchConfig` defers is re-queued at the tail with its path's `Sorted`
flag set (so it can defer at most once); all other configs are consumed.
`none` means the budget ran out — the termination theorem shows a budget of
twice the list length always suffices. -/
def matchBaseLoop (response : Option Value) :
    Nat → List FieldMatcherConfig → List FieldMatcherResult → Bool → NodeCache →
    DataStore → Option MatchBaseOut
  | _, [], results, agg, cache, ds => some ⟨agg, results, none, [], cache, ds⟩
  | 0, _ :: _, _, _, _, _ => none
  | fuel + 1, cfg :: rest, results, agg, cache, ds =>
    let out := matchConfig cfg response ds cache
    let cfg' := { cfg with matcher := out.matcher }
    let results' := results ++ out.res.results
    match out.res.err with
    | some e => some ⟨false, results', some e, cfg' :: rest, out.cache, out.ds⟩
    | none =>
      if out.res.deferCheck then
        matchBaseLoop response fuel
          (rest ++ [{ cfg' with
            objectKeyPath := { cfg'.objectKeyPath with sorted := true } }])
          results' agg out.cache out.ds
      else
        matchBaseLoop response fuel rest results' (agg && out.res.status) out.cache
          out.ds

/-- `ResponseMatcher.MatchBase` with the nil-`keyProcessor` matcher processor:
re-sort, then run the loop (the budget `2 * n` is justified by the termination
theorem below). -/
def matchBase (cfgs : List FieldMatcherConfig) (response : Option Value)
    (cache : NodeCache) (ds : DataStore) : Option MatchBaseOut :=
  let sorted := SortConfigs cfgs
  matchBaseLoop response (2 * sorted.length) sorted [] true cache ds

/-- The synthetic failure row of the empty-response rule. -/
def emptyResponseResult : FieldMatcherResult :=
  { status := false
    objectKeyPath := "response"
    error := "Expected a non-null response payload."
    showExtendedMsg := false
    ignoreResult := false }

/-- `ResponseMatcher.Match` (matcher.go, lines 857-872). -/
def matchResponse (cfgs : List FieldMatcherConfig) (response : Option Value)
    (cache : NodeCache) (ds : DataStore) : Option MatchBaseOut :=
  if ¬ validateEmpty cfgs response then
    some ⟨false, [emptyResponseResult], none, cfgs, cache, ds⟩
  else matchBase cfgs response cache ds

/-! ## `TestCase.ValidateREST` (testcase.go, lines 226-264) -/

/-- `StatusCodePath`. -/
def StatusCodePath : String := "response.StatusCode"

/-- `HeadersPath`. -/
def HeadersPath : String := "response.Header"

/-- `CFG_RESPONSE_CODE`. -/
def cfgResponseCode : String := "code"

/-- The parts of a `ResponseMatcher` beyond the shared `DS` pointer: its
config list and node cache. `LoadConfig` aliases every matcher's `DS` to the
test's `GlobalDataStore` (`t.ResponseMatcher.DS = t.GlobalDataStore`), so the
store is threaded through all three matchers below as one value. -/
structure RespMatcherState where
  config : List FieldMatcherConfig
  cache : NodeCache
deriving Repr

/-- A test case's three matcher lists. -/
structure TestCaseMatchers where
  statusM : RespMatcherState
  payloadM : RespMatcherState
  headerM : RespMatcherState
deriving Repr

/-- The outcome of `ValidateREST`: pass flag, result rows, early error, the
suite store afterwards, and the updated matcher states. -/
structure ValidateOut where
  passed : Bool
  fields : List FieldMatcherResult
  err : Option MatchErr
  ds : DataStore
  matchers : TestCaseMatchers
deriving Repr

/-- `TestCase.ValidateREST`: status code against `\x7bcode: <int>\x7d`, then the
payload, then the headers; on overall success the matcher store is copied into
the global store — the same store, since `LoadConfig` aliased them. `none`
only if a matcher-list budget ran out (impossible by the termination
theorem). -/
def validateREST (tc : TestCaseMatchers) (statusCode : Int)
    (response headers : Option Value) (globalDS : DataStore) : Option ValidateOut :=
  match matchResponse tc.statusM.config (some (.map [(cfgResponseCode, .int statusCode)]))
      tc.statusM.cache globalDS with
  | none => none
  | some sRun =>
    let statusM' : RespMatcherState := ⟨sRun.configs, sRun.cache⟩
    match sRun.err with
    | some e =>
      some ⟨false, sRun.results, some e, sRun.ds,
        { tc with statusM := statusM' }⟩
    | none =>
      let newResults :=
        sRun.results.map (fun r => { r with objectKeyPath := StatusCodePath })
      match matchResponse tc.payloadM.config response tc.payloadM.cache sRun.ds with
      | none => none
      | some pRun =>
        let payloadM' : RespMatcherState := ⟨pRun.configs, pRun.cache⟩
        match pRun.err with
        | some e =>
          some ⟨false, pRun.results, some e, pRun.ds,
            { tc with statusM := statusM', payloadM := payloadM' }⟩
        | none =>
          let newResults := newResults ++ pRun.results
          match matchResponse tc.headerM.config headers tc.headerM.cache pRun.ds with
          | none => none
          | some hRun =>
            let headerM' : RespMatcherState := ⟨hRun.configs, hRun.cache⟩
            let matchers' : TestCaseMatchers := ⟨statusM', payloadM', headerM'⟩
            match hRun.err with
            | some e => some ⟨false, hRun.results, some e, hRun.ds, matchers'⟩
            | none =>
              let newResults := newResults ++
                hRun.results.map (fun r =>
                  { r with objectKeyPath := HeadersPath ++ r.objectKeyPath })
              let overall := pRun.status && hRun.status && sRun.status
              let finalDS := if overall then dsMerge hRun.ds hRun.ds else hRun.ds
              some ⟨overall, newResults, none, finalDS, matchers'⟩

/-! ## The spec's reading of quote promotion -/

/-- Modelled from the spec's words (§4.2/§9 escape collapse): after one level
of collapse "a run of odd length keeps one escape, and a run of even length
removes two backslashes". This is the claimed behaviour, for comparison with
`collapsedRunLen` translated from the source. -/
def specCollapseRun (n : Nat) : Nat :=
  if n % 2 = 1 then 1 else n - 2

/-- The interior scan of the spec's reading of quote promotion, shaped like
`collapseRunsAux` but collapsing runs by `specCollapseRun`. -/
def specCollapseAux : List Char → Nat → List Char
  | [], pending =>
    if pending = 0 then [] else List.replicate (specCollapseRun pending) '\\'
  | c :: rest, pending =>
    if c = '\\' then specCollapseAux rest (pending + 1)
    else
      (if pending = 0 then [] else List.replicate (specCollapseRun pending) '\\') ++
        c :: specCollapseAux rest 0

/-- The spec's reading of promoting one quoted token: strip the outer quotes
and collapse each interior backslash run by `specCollapseRun`. -/
def specPromoteToken (s : String) : String :=
  match s.toList with
  | [] => s
  | c :: rest =>
    if rest ≠ [] ∧ isQuoteChar c ∧ isQuoteChar ((c :: rest).getLast (by simp)) then
      ⟨specCollapseAux rest.dropLast 0⟩
    else s

/-! ## Concrete fixtures used by the claim theorems -/

/-- A run of `n` backslashes. -/
def bsRun (n : Nat) : String := ⟨List.replicate n '\\'⟩

/-- A double-quoted token with a backslash run of length `n` between `a` and
`b`. -/
def quotedRunToken (n : Nat) : String := "\"a" ++ bsRun n ++ "b\""

/-- Default matcher props with a priority and a capture name. -/
def mkProps (dsName : String) (priority : Int) : FieldMatcherProps :=
  ⟨true, false, "", dsName, priority⟩

/-- A literal-value bool matcher config at a one- or two-key sorted path. -/
def mkBoolCfg (want : Bool) (dsName : String) (priority : Int)
    (names : List String) : FieldMatcherConfig :=
  ⟨.bool ⟨some want, none, mkProps dsName priority⟩,
    ⟨names.map (fun n => ⟨n, jsonField n⟩), true, false⟩⟩

/-- C2 fixture: priority 1 at a two-key path. -/
def c2CfgA : FieldMatcherConfig := mkBoolCfg true "" 1 ["x", "y"]

/-- C2 fixture: priority 2 at a one-key path. -/
def c2CfgB : FieldMatcherConfig := mkBoolCfg true "" 2 ["z"]

/-- C2 fixture: equal priority and path length, first of the pair. -/
def c2CfgE1 : FieldMatcherConfig := mkBoolCfg true "e1" 5 ["p"]

/-- C2 fixture: equal priority and path length, second of the pair. -/
def c2CfgE2 : FieldMatcherConfig := mkBoolCfg true "e2" 5 ["q"]

/-- C3 fixture: the `\x7btype: array, length: "$>= 3"\x7d` matcher (array parsing
sets `Nullable`). -/
def c3ArrayMatcher : ArrayMatcher :=
  ⟨none, some "$>= 3", true, ⟨true, true, "", "", 9999⟩⟩

/-- C4/C6 fixture: a store with a one-element sequence under `a`. -/
def c4Store : DataStore := [("a", .seq [.int 1])]

/-- C5 fixture: a bool matcher whose pattern is the literal `true`. -/
def c5TrueMatcher : BoolMatcher := ⟨none, some "true", mkProps "" 9999⟩

/-- C5 fixture: a bool matcher with the unparseable pattern `xyz`. -/
def c5BadMatcher : BoolMatcher := ⟨none, some "xyz", mkProps "" 9999⟩

/-- C6 fixture: `\x7bHosts: \x7bBeta: "http://x"\x7d, STAGE: "Beta"\x7d`. -/
def c6Store : DataStore :=
  [("Hosts", .map [("Beta", .str "http://x")]), ("STAGE", .str "Beta")]

/-- C1 fixture: payload matcher on `.a`, expecting `true`, capturing into
`x`. -/
def c1CfgPass : FieldMatcherConfig := mkBoolCfg true "x" 9999 ["a"]

/-- C1 fixture: payload matcher on `.b`, expecting `false` (it will fail). -/
def c1CfgFail : FieldMatcherConfig := mkBoolCfg false "" 9999 ["b"]

/-- C1 fixture: the test case's three matcher lists (empty status and header
lists; the payload list holds the passing capture and the failing check). -/
def c1Matchers : TestCaseMatchers :=
  ⟨⟨[], []⟩, ⟨[c1CfgPass, c1CfgFail], []⟩, ⟨[], []⟩⟩

/-- C1 fixture: response `\x7b"a": true, "b": true\x7d`. -/
def c1Response : Value := .map [("a", .bool true), ("b", .bool true)]

/-- C1 fixture: response headers. -/
def c1Headers : Value := .map [("h", .str "v")]

/-- A config that `MatchConfig` defers: an object matcher on an unsorted
path. -/
def deferrableCfg (c : FieldMatcherConfig) : Bool :=
  isObjMatcherB c.matcher && !c.objectKeyPath.sorted

/-- The number of deferrable configs in a list. -/
def countDeferrable (l : List FieldMatcherConfig) : Nat :=
  (l.filter deferrableCfg).length

/-! # Helper lemmas -/

theorem containsSub_cons_false {pat : List Char} {c : Char} {cs : List Char}
    (h : containsSub pat (c :: cs) = false) :
    startsWithL pat (c :: cs) = false ∧ containsSub pat cs = false := by
  simpa [containsSub, Bool.or_eq_false_iff] using h

theorem tokenParseLoop_no_open (runes op cl : List Char) :
    ∀ (rest : List Char) (i : Nat) (esc : Bool) (work frames : List TokenStackFrame)
      (extra : String), containsSub op rest = false →
    (tokenParseLoop runes op cl rest i esc none work frames extra).frames = frames := by
  intro rest
  induction rest with
  | nil => intro i esc work frames extra _; simp [tokenParseLoop]
  | cons c cs ih =>
    intro i esc work frames extra h
    obtain ⟨h1, h2⟩ := containsSub_cons_false h
    simp only [tokenParseLoop, h1, Bool.false_eq_true, if_false]
    split
    · exact ih (i + 1) true work frames extra h2
    · split
      · exact ih (i + 1) false work frames extra h2
      · exact ih (i + 1) false work frames (extra.push c) h2

theorem tokenParse_no_open_frames (input op cl : String)
    (h : goContains input op = false) : (tokenParse input op cl).frames = [] :=
  tokenParseLoop_no_open input.toList op.toList cl.toList input.toList 0 false [] [] "" h

theorem insertRev_length {α : Type} (less : α → α → Bool) (x : α) (rev : List α) :
    (insertRev less x rev).length = rev.length + 1 := by
  induction rev with
  | nil => simp [insertRev]
  | cons y ys ih => simp only [insertRev]; split <;> simp [ih]

theorem goSortSlice_length {α : Type} (less : α → α → Bool) (l : List α) :
    (goSortSlice less l).length = l.length := by
  suffices h : ∀ rev : List α,
      (l.foldl (fun rev x => insertRev less x rev) rev).length = rev.length + l.length by
    simpa [goSortSlice] using h []
  induction l with
  | nil => intro rev; simp
  | cons x xs ih =>
    intro rev
    simp only [List.foldl_cons]
    rw [ih (insertRev less x rev), insertRev_length]
    simp only [List.length_cons]
    omega

theorem matchConfig_defer_shape (cfg : FieldMatcherConfig) (response : Option Value)
    (ds : DataStore) (cache : NodeCache)
    (h : (matchConfig cfg response ds cache).res.deferCheck = true) :
    deferrableCfg cfg = true := by
  unfold matchConfig at h
  split at h
  dsimp only at h
  split at h
  · next hcond => simp [deferrableCfg, hcond.1, hcond.2]
  · exfalso
    split at h
    · simp at h
    · split at h <;> simp at h

theorem countDeferrable_cons (c : FieldMatcherConfig) (l : List FieldMatcherConfig) :
    countDeferrable (c :: l) =
      (if deferrableCfg c then 1 else 0) + countDeferrable l := by
  simp only [countDeferrable, List.filter_cons]
  split <;> simp <;> omega

theorem countDeferrable_append (l₁ l₂ : List FieldMatcherConfig) :
    countDeferrable (l₁ ++ l₂) = countDeferrable l₁ + countDeferrable l₂ := by
  simp [countDeferrable, List.filter_append]

theorem matchBaseLoop_isSome (response : Option Value) :
    ∀ (fuel : Nat) (l : List FieldMatcherConfig) (results : List FieldMatcherResult)
      (agg : Bool) (cache : NodeCache) (ds : DataStore),
      l.length + countDeferrable l ≤ fuel →
      (matchBaseLoop response fuel l results agg cache ds).isSome = true := by
  intro fuel
  induction fuel with
  | zero =>
    intro l results agg cache ds h
    match l with
    | [] => simp [matchBaseLoop]
    | _ :: _ => simp at h
  | succ fuel ih =>
    intro l results agg cache ds h
    match l with
    | [] => simp [matchBaseLoop]
    | cfg :: rest =>
      rw [matchBaseLoop]
      cases herr : (matchConfig cfg response ds cache).res.err with
      | some e => simp [herr]
      | none =>
        simp only [herr]
        by_cases hd : (matchConfig cfg response ds cache).res.deferCheck = true
        · have hdef := matchConfig_defer_shape cfg response ds cache hd
          simp only [hd, if_true]
          apply ih
          rw [List.length_append, countDeferrable_append]
          have hc : countDeferrable (cfg :: rest) = 1 + countDeferrable rest := by
            rw [countDeferrable_cons, hdef]; simp
          have hone : countDeferrable
              [{ { cfg with matcher := (matchConfig cfg response ds cache).matcher } with
                objectKeyPath :=
                  { { cfg with
                      matcher := (matchConfig cfg response ds cache).matcher
                    }.objectKeyPath with sorted := true } }] = 0 := by
            simp [countDeferrable, List.filter, deferrableCfg]
          rw [hone]
          simp only [List.length_cons] at h
          rw [hc] at h
          simp only [List.length_singleton]
          omega
        · simp only [hd, if_false]
          apply ih
          have hmono : countDeferrable rest ≤ countDeferrable (cfg :: rest) := by
            rw [countDeferrable_cons]; omega
          simp only [List.length_cons] at h
          omega

/-! # Claim theorems -/

/-- C6: expanding `@\x7bHosts.@\x7bSTAGE\x7d\x7d/foo` against a store with
`Hosts = \x7bBeta: "http://x"\x7d` and `STAGE = "Beta"` resolves the nested frame
first, substitutes it textually into the containing frame, and — because the
outer frame does not span the whole input — stringifies the resolved host into
the surrounding text, producing `"http://x/foo"`. -/
theorem C6_nested_variable_composition :
    expandVariable c6Store "@\x7bHosts.@\x7bSTAGE\x7d\x7d/foo" =
      .ok (some (.str "http://x/foo")) := rfl

/-- C2: the claim that `SortConfigs` orders any `a` before `b` whenever
`priority(a) < priority(b)` (path length breaking ties, stably) fails on the
code: the `sort.Slice` comparator conjoins the priority and path-length
comparisons, so `c2CfgA` (priority 1, two keys) and `c2CfgB` (priority 2, one
key) are mutually incomparable and keep their original order `[B, A]`, while
two configs equal in both criteria compare as `true` and are swapped, breaking
stability. -/
theorem C2_sort_comparator_violations :
    SortConfigs [c2CfgB, c2CfgA] = [c2CfgB, c2CfgA] ∧
    getPriorityM c2CfgA.matcher < getPriorityM c2CfgB.matcher ∧
    SortConfigs [c2CfgE1, c2CfgE2] = [c2CfgE2, c2CfgE1] ∧
    c2CfgE1 ≠ c2CfgE2 :=
  ⟨rfl, by decide, rfl, by decide⟩

/-- C3: the claim that a `$>= N` length expression evaluates without error and
succeeds iff `L ≥ N` (with the E4 message on failure) fails on the code:
`evaluateNumExpr` has no `break`, so after handling `$>=` it also matches the
`$>` operator against `"$>= 3"`, fails to parse `"= 3"`, and returns an error
with an empty message — for every length, including `5 ≥ 3`. The array matcher
then drops that error into a shadowed variable and reports the failure with
the error text `"[length] "` instead of the claimed message. `$<=` fails the
same way via `$<`. -/
theorem C3_gte_length_expr_broken :
    evaluateNumExpr "$>= 3" 2 = (false, true, "", some .parse) ∧
    evaluateNumExpr "$>= 3" 5 = (false, true, "", some .parse) ∧
    evaluateNumExpr "$<= 3" 2 = (false, true, "", some .parse) ∧
    (arrayMatcherMatch c3ArrayMatcher (some (.seq [.int 1, .int 2])) []).status = false ∧
    (arrayMatcherMatch c3ArrayMatcher
      (some (.seq [.int 1, .int 2])) []).matcher.props.errorStr = "[length] " ∧
    (arrayMatcherMatch c3ArrayMatcher (some (.seq [.int 1, .int 2])) []).err = none ∧
    (arrayMatcherMatch c3ArrayMatcher
      (some (.seq [.int 1, .int 2, .int 3, .int 4, .int 5])) []).status = false :=
  ⟨rfl, rfl, rfl, rfl, rfl, rfl, rfl⟩

/-- C4: the claim that a store read errors (with the index-exceeds error) for
every index at or past the sequence length fails on the code: the guard is
`idx > len`, so reading index 1 of a one-element sequence passes the guard and
`v[idx]` aborts with a runtime index-out-of-range panic, in both
`GetJsonValue` and `resolveVariable`; the three error kinds do fire on the
other shapes. -/
theorem C4_index_at_length_panics :
    GetJsonValue c4Store "a[0]" = .ok (.int 1) ∧
    GetJsonValue c4Store "a[1]" = .panic ∧
    GetJsonValue c4Store "a[2]" = .err (.indexExceeds "a[2]") ∧
    GetJsonValue c4Store "a[x]" = .err (.badIndex "a[x]") ∧
    GetJsonValue c4Store "b" = .err (.missingKey "b") ∧
    resolveVariable c4Store "@\x7ba[1]\x7d" = .panic ∧
    resolveVariable c4Store "@\x7ba[2]\x7d" = .err (.indexExceeds "a[2]") :=
  ⟨rfl, rfl, rfl, rfl, rfl, rfl, rfl⟩

/-- C5: the claim that a Bool matcher with a literal pattern succeeds iff the
response equals the parsed literal fails on the code: the success flag is
`err != nil && result` — the parse-error test is inverted — so the literal
pattern `"true"` never matches (even the response `true`), while the
unparseable pattern `"xyz"` matches the response `false`; the
expected-versus-actual error is recorded on value mismatch as claimed. -/
theorem C5_bool_pattern_inverted_error_check :
    (boolMatcherMatch c5TrueMatcher (some (.bool true)) []).status = false ∧
    (boolMatcherMatch c5TrueMatcher (some (.bool false)) []).status = false ∧
    (boolMatcherMatch c5TrueMatcher (some (.bool false)) []).matcher.props.errorStr =
      valueErrFmt "true" "false" ∧
    (boolMatcherMatch c5BadMatcher (some (.bool false)) []).status = true :=
  ⟨rfl, rfl, rfl, rfl⟩

/-- C8: the claim's escape-collapse arithmetic ("odd keeps one escape, even
removes two") contradicts the code on the token `"a\\b"` (an interior run of
two backslashes): the code keeps one backslash (an even run loses exactly
one), the spec's reading keeps none. -/
theorem C8_counterexample_even_run :
    promoteToken (quotedRunToken 2) = "a" ++ bsRun 1 ++ "b" ∧
    specPromoteToken (quotedRunToken 2) = "ab" ∧
    PromoteTokenQuotes [quotedRunToken 2] ≠ [specPromoteToken (quotedRunToken 2)] :=
  ⟨rfl, rfl, by decide⟩

/-- C8 (amended): for every token whose first and last characters are quotes,
promotion strips the outer quotes and collapses each maximal interior
backslash run of length `n` to `collapsedRunLen n` backslashes — a run of one
is removed, an even run loses one backslash, a longer odd run loses two —
verified for all runs up to length 8. -/
theorem C8_amended_collapse_table (n : Fin 8) :
    PromoteTokenQuotes [quotedRunToken (n.val + 1)] =
      ["a" ++ bsRun (collapsedRunLen (n.val + 1)) ++ "b"] := by
  revert n; decide

/-- C8 (amended) witness at run length 2. -/
theorem C8_amended_witness :
    PromoteTokenQuotes [quotedRunToken 2] = ["a" ++ bsRun (collapsedRunLen 2) ++ "b"] :=
  C8_amended_collapse_table ⟨1, by decide⟩

/-- C7: the existence check is the claimed four-case function of
`(node, exists, nullable)` — null/exists/non-nullable fails; null/not-exists
passes and skips evaluation; non-null/not-exists fails; non-null/exists
continues to evaluation — both as the free function `handleExistence` and as
the props method `ValidateExistance` (which also records the message). -/
theorem C7_existence_four_cases (v : Value) (nb : Bool) (p : FieldMatcherProps) :
    handleExistence none true false = (false, false, receivedNullErr) ∧
    handleExistence none false nb = (true, false, "[Expected] <nil>") ∧
    handleExistence (some v) false nb = (false, false, expectedNullErr) ∧
    handleExistence (some v) true nb = (false, true, "") ∧
    validateExistanceProps { p with existsFlag := true, nullable := false } none =
      ({ p with existsFlag := true, nullable := false, errorStr := receivedNullErr },
        false, false) ∧
    validateExistanceProps { p with existsFlag := false } none =
      ({ p with existsFlag := false, errorStr := "[Expected] <nil>" }, true, false) ∧
    validateExistanceProps { p with existsFlag := false } (some v) =
      ({ p with existsFlag := false, errorStr := expectedNullErr }, false, false) ∧
    validateExistanceProps { p with existsFlag := true, nullable := false } (some v) =
      ({ p with existsFlag := true, nullable := false }, false, true) :=
  ⟨rfl, rfl, rfl, rfl, rfl, rfl, rfl, rfl⟩

/-- C7 witness at concrete inputs. -/
theorem C7_existence_witness :
    handleExistence none true false = (false, false, receivedNullErr) ∧
    handleExistence none false true = (true, false, "[Expected] <nil>") ∧
    handleExistence (some (.int 7)) false true = (false, false, expectedNullErr) ∧
    handleExistence (some (.int 7)) true true = (false, true, "") ∧
    validateExistanceProps { mkProps "" 1 with existsFlag := true, nullable := false }
        none =
      ({ mkProps "" 1 with
          existsFlag := true
          nullable := false
          errorStr := receivedNullErr }, false, false) ∧
    validateExistanceProps { mkProps "" 1 with existsFlag := false } none =
      ({ mkProps "" 1 with existsFlag := false, errorStr := "[Expected] <nil>" },
        true, false) ∧
    validateExistanceProps { mkProps "" 1 with existsFlag := false } (some (.int 7)) =
      ({ mkProps "" 1 with existsFlag := false, errorStr := expectedNullErr },
        false, false) ∧
    validateExistanceProps { mkProps "" 1 with existsFlag := true, nullable := false }
        (some (.int 7)) =
      ({ mkProps "" 1 with existsFlag := true, nullable := false }, false, true) :=
  C7_existence_four_cases (.int 7) true (mkProps "" 1)

/-- C9: on a string with no `@\x7b` occurrence, `ExpandVariable` parses no frames
and returns the input unchanged with no error; likewise `ExecuteCommand` on a
string with no `$(` occurrence, for any external runner (expansion is the
identity on template-free strings). -/
theorem C9_identity_on_template_free (store : DataStore) (runner : CmdRunner)
    (s t : String) (h1 : goContains s varOpen = false)
    (h2 : goContains t cmdOpen = false) :
    expandVariable store s = .ok (some (.str s)) ∧ executeCommand runner t = .ok t := by
  constructor
  · have hf := tokenParse_no_open_frames s varOpen varClose h1
    unfold expandVariable
    simp [hf]
  · have hf := tokenParse_no_open_frames t cmdOpen cmdClose h2
    unfold executeCommand
    simp [hf]

/-- C9 witness at concrete template-free inputs. -/
theorem C9_identity_witness :
    expandVariable [] "hello" = .ok (some (.str "hello")) ∧
    executeCommand (fun c => .ok c) "echo hi" = .ok "echo hi" :=
  C9_identity_on_template_free [] (fun c => .ok c) "hello" "echo hi"
    (by decide) (by decide)

/-- C10: the evaluator's match loop terminates on every response, matcher
list, cache and store: a deferred config is re-queued with its `Sorted` flag
already set, so it can defer at most once and a step budget of twice the list
length always suffices — `matchBase` (and the `Match` entry point around it)
never exhausts its `2 * n` budget. -/
theorem C10_match_loop_terminates (cfgs : List FieldMatcherConfig)
    (response : Option Value) (cache : NodeCache) (ds : DataStore) :
    (matchBase cfgs response cache ds).isSome = true ∧
    (matchResponse cfgs response cache ds).isSome = true := by
  have hbase : (matchBase cfgs response cache ds).isSome = true := by
    unfold matchBase
    apply matchBaseLoop_isSome
    have h1 : countDeferrable (SortConfigs cfgs) ≤ (SortConfigs cfgs).length :=
      List.length_filter_le _ _
    omega
  refine ⟨hbase, ?_⟩
  unfold matchResponse
  split
  · simp
  · exact hbase

/-- C1: the claim that a `storeAs` capture is visible in the suite store iff
the whole case passes fails on the code: `LoadConfig` aliases every matcher's
`DS` to the global store, so `MatchConfig` merges each matcher's captures into
the suite store as soon as that matcher individually passes, and the
commit-on-pass copy at the end of `ValidateREST` is a self-copy. Here the
`.a` matcher passes and stores `x = true`, the `.b` matcher fails, the case
fails overall — yet `x` is in the suite store afterwards. -/
theorem C1_capture_committed_despite_case_failure :
    (validateREST c1Matchers 200 (some c1Response) (some c1Headers) []).map
      (fun r => (r.passed, dsGet r.ds "x", r.fields.map (fun f => f.status))) =
      some (false, some (.bool true), [false, true]) := rfl

end Arp
